import Mathlib

/-!
Verification of the web-atlas-data index build pipeline.

The development shallowly embeds the three executable parts of the
repository:

* `tools/build-indexes.js` — reads every `sites/<dir>/site.yml`, validates
  required fields, projects each valid record to a flat entry, accumulates
  per-category counts, sorts, and serializes `categories.json` and
  `sites-en.json`;
* `tools/copy-indexes.js` — copies the two generated documents to the
  serving location with post-copy verification;
* `web/app.js` — renders the two documents into HTML, escaping text through
  `escapeHtml`.

JavaScript conventions modelled explicitly: an absent (`undefined`/`null`)
field is `Option.none`; JS truthiness treats the empty string and the
number 0 as falsy, which matters in `a || b` fallbacks; JS `Map` preserves
insertion order and updates keys in place; `Array.prototype.sort` with a
consistent comparator is the unique stable sort of the array, modelled here
with `List.insertionSort` (which is stable for a non-strict relation).
-/

namespace WebAtlas

/-- One parsed `site.yml` record as `yaml.load` hands it to the builder.
Every field the builder touches is optional at this level; validation
happens afterwards. Locale maps (`title`, `description`) are association
lists from locale tag to string. -/
structure SiteData where
  id : Option String
  url : Option String
  category : Option String
  lenses : Option (List String)
  quality : Option String
  title : Option (List (String × String))
  description : Option (List (String × String))
  tags : Option (List String)
deriving DecidableEq, Repr

/-- JS truthiness of an optional string: `undefined`, `null` and the empty
string are falsy. -/
def truthyStr : Option String → Bool
  | none => false
  | some s => s != ""

/-- JS `a || b` for an optional string `a`: falls back to `b` when `a` is
absent or empty (both falsy in JS). -/
def jsOrStr : Option String → String → String
  | none, b => b
  | some s, b => if s = "" then b else s

/-- JS optional-chained property access `m?.[loc]` on a locale map. -/
def lookupLocale (m : Option (List (String × String))) (loc : String) : Option String :=
  match m with
  | none => none
  | some l => (l.find? (fun p => p.1 == loc)).map (fun p => p.2)

/-- The required-field check of `build-indexes.js` line 46:
`!siteData.id || !siteData.url || !siteData.category` skips the record. -/
def isValidSite (d : SiteData) : Bool :=
  truthyStr d.id && truthyStr d.url && truthyStr d.category

/-- One element of the flat `sites-en.json` array. The seven mandatory keys
are always set by the builder; `tags` is attached only when the source
record has a truthy `tags` field, hence stays optional. -/
structure SiteEntry where
  id : String
  url : String
  title : String
  description : String
  category : String
  lenses : List String
  quality : String
  tags : Option (List String)
deriving DecidableEq, Repr

/-- The `siteEntry` projection built at `build-indexes.js` lines 52-65:
`title: siteData.title?.en || siteData.id`,
`description: siteData.description?.en || ''`,
`lenses: siteData.lenses || []`, `quality: siteData.quality || 'solid'`,
and `tags` copied only `if (siteData.tags)`. Arrays are always truthy in
JS, so for the array-valued fields only absence falls through. -/
def mkSiteEntry (d : SiteData) : SiteEntry :=
  { id := d.id.getD ""
    url := d.url.getD ""
    title := jsOrStr (lookupLocale d.title "en") (d.id.getD "")
    description := jsOrStr (lookupLocale d.description "en") ""
    category := d.category.getD ""
    lenses := d.lenses.getD []
    quality := jsOrStr d.quality "solid"
    tags := d.tags }

/-- Outcome of reading one record directory: no `site.yml` at all, a file
`yaml.load` (or the subsequent property access) throws on, or a parsed
record. -/
inductive RawRecord where
  | missingFile : RawRecord
  | parseError : RawRecord
  | parsed : SiteData → RawRecord
deriving DecidableEq, Repr

/-- The record store as the builder sees it: the directory entries of
`sites/` in `fs.readdirSync` order, each with its read outcome. -/
abbrev Store := List (String × RawRecord)

/-- Whether a record contributes an entry to the outputs (the body of the
`siteDirs.forEach` loop falls through every guard). -/
def includeRecord : String × RawRecord → Option SiteEntry := fun p =>
  match p.2 with
  | RawRecord.parsed d => if isValidSite d then some (mkSiteEntry d) else none
  | _ => none

/-- The `sites` array after the `siteDirs.forEach` loop, in store order. -/
def includedEntries (store : Store) : List SiteEntry :=
  store.filterMap includeRecord

/-- Console diagnostics of the loop: a warning for a missing `site.yml`, a
warning for a record failing the required-field check, an error for a
record whose processing throws. -/
def recordMessage : String × RawRecord → Option String := fun p =>
  match p.2 with
  | RawRecord.missingFile => some ("Warning: No site.yml found for " ++ p.1)
  | RawRecord.parseError => some ("Error processing " ++ p.1)
  | RawRecord.parsed d =>
      if isValidSite d then none
      else some ("Warning: Invalid site data for " ++ p.1)

/-- All console diagnostics of one build, in store order. -/
def buildMessages (store : Store) : List String :=
  store.filterMap recordMessage

/-- Sign of comparing two characters by code point. -/
def charCmp (a b : Char) : Int :=
  if a.toNat < b.toNat then -1 else if b.toNat < a.toNat then 1 else 0

/-- Lexicographic comparison of character sequences, returning a sign. -/
def listCmp : List Char → List Char → Int
  | [], [] => 0
  | [], _ :: _ => -1
  | _ :: _, [] => 1
  | a :: as, b :: bs => if charCmp a b = 0 then listCmp as bs else charCmp a b

/-- Model of `String.prototype.localeCompare` as code-unit lexicographic
comparison returning a sign. The builtin consults the host collation; on
the inputs this development evaluates concretely (ASCII words with
distinct initial letters of equal case) every collation yields the same
sign as this order. -/
def lexCmp (a b : String) : Int :=
  listCmp a.data b.data

/-- The quality-rank table `{ exceptional: 0, solid: 1, niche: 2 }` of
`build-indexes.js` line 85; lookup of any other key is `undefined`. -/
def qualityOrder (q : String) : Option Int :=
  if q = "exceptional" then some 0
  else if q = "solid" then some 1
  else if q = "niche" then some 2
  else none

/-- JS `a || b` on an optional number: `undefined` and 0 are falsy, so
`(qualityOrder[q] || 1)` maps rank 0 to 1. -/
def jsOrInt : Option Int → Int → Int
  | none, b => b
  | some n, b => if n = 0 then b else n

/-- The comparator of `sites.sort` (`build-indexes.js` lines 81-89):
category, then `(qualityOrder[quality] || 1)` difference, then title. -/
def siteCmp (a b : SiteEntry) : Int :=
  if a.category ≠ b.category then lexCmp a.category b.category
  else
    let qualityDiff := jsOrInt (qualityOrder a.quality) 1 - jsOrInt (qualityOrder b.quality) 1
    if qualityDiff ≠ 0 then qualityDiff else lexCmp a.title b.title

/-- `a` may stay before `b` under the comparator: the order a stable sort
realizes. -/
def siteLe (a b : SiteEntry) : Prop := siteCmp a b ≤ 0

instance : DecidableRel siteLe := fun a b => inferInstanceAs (Decidable (siteCmp a b ≤ 0))

/-- `sites.sort(comparator)`: stable sort under `siteLe`. -/
def sortSites (l : List SiteEntry) : List SiteEntry :=
  l.insertionSort siteLe

/-- The `sites-en.json` array for a store. -/
def flatSites (store : Store) : List SiteEntry :=
  sortSites (includedEntries store)

/-- One `categories.set` round trip of lines 70-74: an existing key is
incremented in place (JS `Map` keeps its position), a new key is appended. -/
def bump : List (String × Nat) → String → List (String × Nat)
  | [], c => [(c, 1)]
  | (k, v) :: m, c => if k = c then (k, v + 1) :: m else (k, v) :: bump m c

/-- The `categories` map after the loop, in insertion order. Each included
record bumps the counter of its literal `category` string. -/
def catCounts (store : Store) : List (String × Nat) :=
  ((includedEntries store).map (fun e => e.category)).foldl bump []

/-- The comparator of `categoriesList` (line 94): name ascending. -/
def catLe (a b : String × Nat) : Prop := lexCmp a.1 b.1 ≤ 0

instance : DecidableRel catLe := fun a b => inferInstanceAs (Decidable (lexCmp a.1 b.1 ≤ 0))

/-- `.sort((a, b) => a.name.localeCompare(b.name))` on the category list. -/
def sortCats (m : List (String × Nat)) : List (String × Nat) :=
  m.insertionSort catLe

/-- The `categories.json` document: sorted `{name, count}` list plus
`totalSites: sites.length`. -/
structure CategoriesDoc where
  categories : List (String × Nat)
  totalSites : Nat
deriving DecidableEq, Repr

/-- `categoriesData` as written to `categories.json`. -/
def categoriesDoc (store : Store) : CategoriesDoc :=
  { categories := sortCats (catCounts store)
    totalSites := (flatSites store).length }

/-- The three-record scenario of the specification: A = Tools, exceptional,
Zeta; B = Tools, solid, Alpha; C = News, solid, Beta. -/
def recordA : SiteData :=
  { id := some "a", url := some "https://a.example", category := some "Tools"
    lenses := none, quality := some "exceptional"
    title := some [("en", "Zeta")], description := none, tags := none }

def recordB : SiteData :=
  { id := some "b", url := some "https://b.example", category := some "Tools"
    lenses := none, quality := some "solid"
    title := some [("en", "Alpha")], description := none, tags := none }

def recordC : SiteData :=
  { id := some "c", url := some "https://c.example", category := some "News"
    lenses := none, quality := some "solid"
    title := some [("en", "Beta")], description := none, tags := none }

def scenarioStore : Store :=
  [("a", RawRecord.parsed recordA),
   ("b", RawRecord.parsed recordB),
   ("c", RawRecord.parsed recordC)]

/-- Claim C1: within a category an `exceptional` entity should precede a
`solid` one, and the scenario store should flatten to News/Beta,
Tools/Zeta, Tools/Alpha. The code disagrees: the comparator computes
`qualityOrder[quality] || 1`, and since the rank of `exceptional` is the
falsy number 0 that expression yields 1, tying `exceptional` with `solid`
so the title decides. Evaluating the build at the scenario store puts
Tools/Alpha (solid) before Tools/Zeta (exceptional), contradicting the
claimed order and the code comment "then by quality (exceptional first)". -/
theorem c1_exceptional_rank_collapses :
    (flatSites scenarioStore).map (fun e => (e.category, e.title)) =
      [("News", "Beta"), ("Tools", "Alpha"), ("Tools", "Zeta")] ∧
    (flatSites scenarioStore).map (fun e => (e.category, e.title)) ≠
      [("News", "Beta"), ("Tools", "Zeta"), ("Tools", "Alpha")] := by
  constructor
  · rfl
  · decide

/-! ### Counting lemmas for the category map -/

/-- `categories.get(c)` with a default of 0: the count an assoc list holds
for a key. -/
def lookupCnt : List (String × Nat) → String → Nat
  | [], _ => 0
  | (k, v) :: m, c => if k = c then v else lookupCnt m c

theorem lookupCnt_bump_self (m : List (String × Nat)) (c : String) :
    lookupCnt (bump m c) c = lookupCnt m c + 1 := by
  induction m with
  | nil => simp [bump, lookupCnt]
  | cons hd tl ih =>
    obtain ⟨k, v⟩ := hd
    by_cases h : k = c
    · subst h; simp [bump, lookupCnt]
    · simp [bump, lookupCnt, h, ih]

theorem lookupCnt_bump_ne (m : List (String × Nat)) {c k : String} (h : k ≠ c) :
    lookupCnt (bump m c) k = lookupCnt m k := by
  induction m with
  | nil => simp [bump, lookupCnt, Ne.symm h]
  | cons hd tl ih =>
    obtain ⟨a, v⟩ := hd
    by_cases hac : a = c
    · subst hac; simp [bump, lookupCnt, Ne.symm h]
    · by_cases hak : a = k <;> simp [bump, lookupCnt, hac, hak, h, ih]

theorem lookupCnt_foldl_bump (l : List String) (m : List (String × Nat)) (k : String) :
    lookupCnt (l.foldl bump m) k =
      lookupCnt m k + (l.filter (fun x => x == k)).length := by
  induction l generalizing m with
  | nil => simp
  | cons c t ih =>
    simp only [List.foldl_cons, List.filter_cons]
    rw [ih]
    by_cases h : c = k
    · subst h; simp [lookupCnt_bump_self]; omega
    · simp [lookupCnt_bump_ne _ (Ne.symm h), h]

theorem keys_bump (m : List (String × Nat)) (c : String) :
    (bump m c).map Prod.fst =
      if c ∈ m.map Prod.fst then m.map Prod.fst else m.map Prod.fst ++ [c] := by
  induction m with
  | nil => simp [bump]
  | cons hd tl ih =>
    obtain ⟨k, v⟩ := hd
    by_cases h : k = c
    · subst h; simp [bump]
    · by_cases hm : c ∈ tl.map Prod.fst <;>
        simp [bump, h, Ne.symm h, hm, ih]

theorem nodupKeys_bump (m : List (String × Nat)) (c : String)
    (h : (m.map Prod.fst).Nodup) : ((bump m c).map Prod.fst).Nodup := by
  rw [keys_bump]
  split
  · exact h
  · next hni => simp [List.nodup_append, h, hni]

theorem nodupKeys_foldl (l : List String) (m : List (String × Nat))
    (h : (m.map Prod.fst).Nodup) : ((l.foldl bump m).map Prod.fst).Nodup := by
  induction l generalizing m with
  | nil => exact h
  | cons c t ih => exact ih _ (nodupKeys_bump _ _ h)

theorem lookupCnt_of_mem {m : List (String × Nat)} {p : String × Nat}
    (hp : p ∈ m) (hn : (m.map Prod.fst).Nodup) : lookupCnt m p.1 = p.2 := by
  induction m with
  | nil => cases hp
  | cons hd tl ih =>
    obtain ⟨k, v⟩ := hd
    rcases List.mem_cons.mp hp with h | h
    · subst h; simp [lookupCnt]
    · have hk : k ≠ p.1 := by
        intro e
        apply (List.nodup_cons.mp hn).1
        rw [e]
        exact List.mem_map.mpr ⟨p, h, rfl⟩
      simp only [lookupCnt, hk, if_false]
      exact ih h (List.nodup_cons.mp hn).2

theorem sum_snd_bump (m : List (String × Nat)) (c : String) :
    ((bump m c).map (fun p => p.2)).sum = ((m.map (fun p => p.2)).sum) + 1 := by
  induction m with
  | nil => simp [bump]
  | cons hd tl ih =>
    obtain ⟨k, v⟩ := hd
    by_cases h : k = c <;> simp [bump, h, ih] <;> omega

theorem sum_snd_foldl (l : List String) (m : List (String × Nat)) :
    ((l.foldl bump m).map (fun p => p.2)).sum =
      ((m.map (fun p => p.2)).sum) + l.length := by
  induction l generalizing m with
  | nil => simp
  | cons c t ih =>
    simp only [List.foldl_cons, List.length_cons]
    rw [ih, sum_snd_bump]
    omega

theorem mem_includedEntries {store : Store} {n : String} {d : SiteData}
    (hmem : (n, RawRecord.parsed d) ∈ store) (hv : isValidSite d = true) :
    mkSiteEntry d ∈ includedEntries store :=
  List.mem_filterMap.mpr ⟨(n, RawRecord.parsed d), hmem, by simp [includeRecord, hv]⟩

/-- Claim C3: every count in `categories.json` equals the number of valid
records whose `category` string is literally equal to that category name,
the counts sum to `totalSites`, and `totalSites` is the number of valid
records in the flat document. -/
theorem c3_category_counts (store : Store) :
    (∀ p ∈ (categoriesDoc store).categories,
        p.2 = ((includedEntries store).filter (fun e => e.category == p.1)).length) ∧
    (((categoriesDoc store).categories.map (fun p => p.2)).sum =
        (categoriesDoc store).totalSites) ∧
    (categoriesDoc store).totalSites = (includedEntries store).length := by
  have hperm : (sortCats (catCounts store)).Perm (catCounts store) :=
    List.perm_insertionSort _ _
  have htotal : (categoriesDoc store).totalSites = (includedEntries store).length := by
    simp [categoriesDoc, flatSites, sortSites, List.length_insertionSort]
  refine ⟨?_, ?_, htotal⟩
  · intro p hp
    have hp2 : p ∈ catCounts store := hperm.mem_iff.mp hp
    have hn : ((catCounts store).map Prod.fst).Nodup :=
      nodupKeys_foldl _ [] (by simp)
    have h1 : lookupCnt (catCounts store) p.1 = p.2 := lookupCnt_of_mem hp2 hn
    have h2 := lookupCnt_foldl_bump
      ((includedEntries store).map (fun e => e.category)) [] p.1
    have h3 : ((includedEntries store).map (fun e => e.category)).filter
          (fun x => x == p.1) =
        ((includedEntries store).filter (fun e => e.category == p.1)).map
          (fun e => e.category) := by
      simpa [Function.comp] using
        List.filter_map (fun e : SiteEntry => e.category) (includedEntries store)
    rw [catCounts] at h1
    rw [h1.symm, h2, h3]
    simp [lookupCnt]
  · have hfold := sum_snd_foldl ((includedEntries store).map (fun e => e.category)) []
    simp only [List.map_nil, List.sum_nil, Nat.zero_add, List.length_map] at hfold
    calc ((categoriesDoc store).categories.map (fun p => p.2)).sum
        = ((catCounts store).map (fun p => p.2)).sum := (hperm.map (fun p => p.2)).sum_eq
      _ = (includedEntries store).length := hfold
      _ = (categoriesDoc store).totalSites := htotal.symm

/-- Witness for C3 at the scenario store: `News` carries count 1 and the
bookkeeping identities hold there. -/
theorem c3_category_counts_witness :
    (("News", 1) ∈ (categoriesDoc scenarioStore).categories) ∧
    ((("News", 1) : String × Nat).2 =
      ((includedEntries scenarioStore).filter
        (fun e => e.category == ("News", 1).1)).length) ∧
    (((categoriesDoc scenarioStore).categories.map (fun p => p.2)).sum =
        (categoriesDoc scenarioStore).totalSites) ∧
    (categoriesDoc scenarioStore).totalSites = (includedEntries scenarioStore).length :=
  ⟨by decide,
   (c3_category_counts scenarioStore).1 ("News", 1) (by decide),
   (c3_category_counts scenarioStore).2.1,
   (c3_category_counts scenarioStore).2.2⟩

/-! ### Error handling of the record loop -/

/-- A record the C4 claim is about: its data file cannot be parsed, or a
required field (`id`, `url`, `category`) is absent. -/
def badRecord (r : RawRecord) : Prop :=
  r = RawRecord.parseError ∨
    ∃ d, r = RawRecord.parsed d ∧ (d.id = none ∨ d.url = none ∨ d.category = none)

theorem invalid_of_missing_field {d : SiteData}
    (h : d.id = none ∨ d.url = none ∨ d.category = none) :
    isValidSite d = false := by
  rcases h with h | h | h <;> simp [isValidSite, truthyStr, h]

/-- Claim C4: a record with a missing required field or an unparseable data
file is warned about, excluded from both documents, and does not disturb
the rest of the build — the outputs equal the outputs of the store without
it, and every valid record elsewhere still appears. The embedded build is
a total function, so no input aborts the run. -/
theorem c4_malformed_record_skipped (pre post : Store) (name : String) (r : RawRecord)
    (hbad : badRecord r) :
    flatSites (pre ++ (name, r) :: post) = flatSites (pre ++ post) ∧
    categoriesDoc (pre ++ (name, r) :: post) = categoriesDoc (pre ++ post) ∧
    (∃ msg, recordMessage (name, r) = some msg ∧
      msg ∈ buildMessages (pre ++ (name, r) :: post)) ∧
    (∀ n d, (n, RawRecord.parsed d) ∈ pre ++ post → isValidSite d = true →
      mkSiteEntry d ∈ flatSites (pre ++ (name, r) :: post)) := by
  have hnone : includeRecord (name, r) = none := by
    rcases hbad with h | ⟨d, hd, hfield⟩
    · subst h; rfl
    · subst hd; simp [includeRecord, invalid_of_missing_field hfield]
  have hmsg : ∃ msg, recordMessage (name, r) = some msg := by
    rcases hbad with h | ⟨d, hd, hfield⟩
    · subst h; exact ⟨_, rfl⟩
    · subst hd
      exact ⟨"Warning: Invalid site data for " ++ name,
        by simp [recordMessage, invalid_of_missing_field hfield]⟩
  have hincl : includedEntries (pre ++ (name, r) :: post) = includedEntries (pre ++ post) := by
    simp [includedEntries, List.filterMap_append, List.filterMap_cons, hnone]
  obtain ⟨msg, hmsgeq⟩ := hmsg
  refine ⟨by simp [flatSites, hincl],
          by simp [categoriesDoc, flatSites, catCounts, hincl],
          ⟨msg, hmsgeq, ?_⟩, ?_⟩
  · exact List.mem_filterMap.mpr
      ⟨(name, r), List.mem_append.mpr (Or.inr (List.mem_cons_self _ _)), hmsgeq⟩
  · intro n d hmem hv
    have hmem2 : (n, RawRecord.parsed d) ∈ pre ++ (name, r) :: post := by
      rcases List.mem_append.mp hmem with h | h
      · exact List.mem_append.mpr (Or.inl h)
      · exact List.mem_append.mpr (Or.inr (List.mem_cons_of_mem _ h))
    exact (List.perm_insertionSort _ _).mem_iff.mpr (mem_includedEntries hmem2 hv)

/-- Witness for C4: a store holding one unparseable record and the valid
record C builds exactly as the store holding C alone, emits the error
message, and still lists C. -/
theorem c4_malformed_record_skipped_witness :
    flatSites [("bad", RawRecord.parseError), ("c", RawRecord.parsed recordC)] =
      flatSites [("c", RawRecord.parsed recordC)] ∧
    categoriesDoc [("bad", RawRecord.parseError), ("c", RawRecord.parsed recordC)] =
      categoriesDoc [("c", RawRecord.parsed recordC)] ∧
    mkSiteEntry recordC ∈
      flatSites [("bad", RawRecord.parseError), ("c", RawRecord.parsed recordC)] :=
  have h := c4_malformed_record_skipped [] [("c", RawRecord.parsed recordC)]
    "bad" RawRecord.parseError (Or.inl rfl)
  ⟨h.1, h.2.1, h.2.2.2 "c" recordC (by decide) (by decide)⟩

/-! ### Locale fallback of the projection (C5) -/

/-- A valid record whose `title` map carries an empty `en` entry. -/
def emptyTitleRecord : SiteData :=
  { id := some "site-x", url := some "https://x.example", category := some "Tools"
    lenses := none, quality := none
    title := some [("en", "")], description := none, tags := none }

/-- Counterexample to C5 as stated: for a record whose `en` title entry is
present but empty, the claim forces the flat title to be that entry (the
empty string), yet `siteData.title?.en || siteData.id` treats the empty
string as falsy and falls back to the raw id. -/
theorem c5_empty_title_counterexample :
    isValidSite emptyTitleRecord = true ∧
    lookupLocale emptyTitleRecord.title "en" = some "" ∧
    (mkSiteEntry emptyTitleRecord).title = "site-x" ∧
    (mkSiteEntry emptyTitleRecord).title ≠ "" :=
  ⟨by decide, by decide, by decide, by decide⟩

/-- Claim C5 as amended: the flat title equals the `en` title entry when
that entry is present and non-empty, and falls back to the raw id when the
entry is absent or empty; the flat description equals the `en` description
entry when present and the empty string otherwise. -/
theorem c5_title_description_fallback (d : SiteData) (h : isValidSite d = true) :
    (∀ s, lookupLocale d.title "en" = some s → s ≠ "" →
      (mkSiteEntry d).title = s) ∧
    (lookupLocale d.title "en" = none → (mkSiteEntry d).title = d.id.getD "") ∧
    (lookupLocale d.title "en" = some "" → (mkSiteEntry d).title = d.id.getD "") ∧
    (∀ s, lookupLocale d.description "en" = some s → (mkSiteEntry d).description = s) ∧
    (lookupLocale d.description "en" = none → (mkSiteEntry d).description = "") := by
  refine ⟨?_, ?_, ?_, ?_, ?_⟩
  · intro s hs hne; simp [mkSiteEntry, jsOrStr, hs, hne]
  · intro hs; simp [mkSiteEntry, jsOrStr, hs]
  · intro hs; simp [mkSiteEntry, jsOrStr, hs]
  · intro s hs
    by_cases hse : s = "" <;> simp [mkSiteEntry, jsOrStr, hs, hse]
  · intro hs; simp [mkSiteEntry, jsOrStr, hs]

/-- A valid record carrying only non-`en` locales. -/
def deOnlyRecord : SiteData :=
  { id := some "mdn-web-docs", url := some "https://developer.mozilla.org"
    category := some "Build", lenses := none, quality := none
    title := some [("de", "MDN Web Docs")]
    description := some [("de", "Umfassende Doku")], tags := none }

/-- Witness for the amended C5: a record with only a `de` locale falls back
to the raw id and the empty description. -/
theorem c5_title_description_fallback_witness :
    (mkSiteEntry deOnlyRecord).title = "mdn-web-docs" ∧
    (mkSiteEntry deOnlyRecord).description = "" :=
  have h := c5_title_description_fallback deOnlyRecord (by decide)
  ⟨h.2.1 (by decide), h.2.2.2.2 (by decide)⟩

/-! ### Duplicate ids are not deduplicated (C9) -/

/-- Claim C9: two valid records carrying the same id both reach the flat
document, both count toward their category, and both count toward
`totalSites`. -/
theorem c9_duplicate_ids (n1 n2 : String) (d1 d2 : SiteData)
    (h1 : isValidSite d1 = true) (h2 : isValidSite d2 = true)
    (hid : d1.id = d2.id) :
    (flatSites [(n1, RawRecord.parsed d1), (n2, RawRecord.parsed d2)]).length = 2 ∧
    mkSiteEntry d1 ∈ flatSites [(n1, RawRecord.parsed d1), (n2, RawRecord.parsed d2)] ∧
    mkSiteEntry d2 ∈ flatSites [(n1, RawRecord.parsed d1), (n2, RawRecord.parsed d2)] ∧
    (categoriesDoc [(n1, RawRecord.parsed d1), (n2, RawRecord.parsed d2)]).totalSites = 2 ∧
    (∀ c, d1.category = some c → d2.category = some c →
      (categoriesDoc [(n1, RawRecord.parsed d1), (n2, RawRecord.parsed d2)]).categories =
        [(c, 2)]) := by
  set store : Store := [(n1, RawRecord.parsed d1), (n2, RawRecord.parsed d2)] with hstore
  have hincl : includedEntries store = [mkSiteEntry d1, mkSiteEntry d2] := by
    simp [hstore, includedEntries, includeRecord, h1, h2]
  have hlen : (flatSites store).length = 2 := by
    show (List.insertionSort siteLe (includedEntries store)).length = 2
    rw [List.length_insertionSort, hincl]
    rfl
  refine ⟨hlen, ?_, ?_, ?_, ?_⟩
  · exact (List.perm_insertionSort _ _).mem_iff.mpr (by simp [hincl])
  · exact (List.perm_insertionSort _ _).mem_iff.mpr (by simp [hincl])
  · simp [categoriesDoc, hlen]
  · intro c hc1 hc2
    have hmapc : (includedEntries store).map (fun e => e.category) = [c, c] := by
      simp [hincl, mkSiteEntry, hc1, hc2]
    have hcnt : catCounts store = [(c, 2)] := by
      rw [catCounts, hmapc]; simp [bump]
    simp [categoriesDoc, hcnt, sortCats, List.insertionSort, List.orderedInsert]

def dupRecord1 : SiteData :=
  { id := some "dup", url := some "https://one.example", category := some "Tools"
    lenses := none, quality := none, title := none, description := none, tags := none }

def dupRecord2 : SiteData :=
  { id := some "dup", url := some "https://two.example", category := some "Tools"
    lenses := none, quality := none, title := none, description := none, tags := none }

/-- Witness for C9 at two concrete records sharing the id `dup`. -/
theorem c9_duplicate_ids_witness :
    (flatSites [("one", RawRecord.parsed dupRecord1),
                ("two", RawRecord.parsed dupRecord2)]).length = 2 ∧
    (categoriesDoc [("one", RawRecord.parsed dupRecord1),
                    ("two", RawRecord.parsed dupRecord2)]).categories = [("Tools", 2)] :=
  have h := c9_duplicate_ids "one" "two" dupRecord1 dupRecord2
    (by decide) (by decide) (by decide)
  ⟨h.1, h.2.2.2.2 "Tools" rfl rfl⟩

/-! ### Shape of the emitted projection (C10) -/

/-- Claim C10: the seven mandatory keys are always set (structurally so in
`SiteEntry`), `lenses` falls back to the empty array when the field is
absent, `quality` falls back to `solid` when absent, and the optional
`tags` key is carried exactly when the source record has a truthy `tags`
field. -/
theorem c10_projection_shape (d : SiteData) (h : isValidSite d = true) :
    (d.lenses = none → (mkSiteEntry d).lenses = []) ∧
    (d.quality = none → (mkSiteEntry d).quality = "solid") ∧
    (mkSiteEntry d).tags = d.tags ∧
    ((mkSiteEntry d).tags.isSome ↔ d.tags.isSome) := by
  refine ⟨?_, ?_, rfl, Iff.rfl⟩ <;> intro hx <;> simp [mkSiteEntry, jsOrStr, hx]

/-- A valid record with every optional field absent. -/
def minimalRecord : SiteData :=
  { id := some "m", url := some "https://m.example", category := some "Misc"
    lenses := none, quality := none, title := none, description := none, tags := none }

/-- Witness for C10 at a record with no optional fields. -/
theorem c10_projection_shape_witness :
    (mkSiteEntry minimalRecord).lenses = [] ∧
    (mkSiteEntry minimalRecord).quality = "solid" ∧
    (mkSiteEntry minimalRecord).tags = minimalRecord.tags :=
  have h := c10_projection_shape minimalRecord (by decide)
  ⟨h.1 rfl, h.2.1 rfl, h.2.2.1⟩

/-! ### The index publisher (`tools/copy-indexes.js`) -/

/-- Contents of the two index documents at one location; `none` means the
file does not exist there. -/
structure IndexPair where
  cats : Option String
  sitesEn : Option String
deriving DecidableEq, Repr

/-- One iteration of the `files.forEach` copy loop for one file. A `throw`
inside the JS loop aborts the whole run, modelled as `Except.error`.
`fs.copyFileSync` either throws (outside this model) or writes the source
content to the destination, so after it the destination holds `content`
and the post-copy existence check passes. `jsonOk` stands for
`JSON.parse` succeeding on a string. -/
def copyOneIndex (jsonOk : String → Bool) (file : String) (src : Option String) :
    Except String String :=
  match src with
  | some content =>
      if (some content : Option String).isNone then
        Except.error ("Failed to copy " ++ file ++ " - destination file does not exist")
      else if jsonOk content then Except.ok content
      else Except.error ("Invalid JSON in " ++ file)
  | none => Except.error ("Error: " ++ file ++ " not found in dist/indexes/ - build failed")

/-- The whole publisher run: copy `categories.json` then `sites-en.json`
from the build-output location to the serve location, then fail if the
loop copied zero files. `copiedCount` was incremented once per successful
copy, so it is 2 when the loop survives both files. -/
def copyIndexes (jsonOk : String → Bool) (dist : IndexPair) :
    Except String (IndexPair × Nat) :=
  match copyOneIndex jsonOk "categories.json" dist.cats with
  | Except.error e => Except.error e
  | Except.ok c =>
    match copyOneIndex jsonOk "sites-en.json" dist.sitesEn with
    | Except.error e => Except.error e
    | Except.ok s =>
      let copiedCount : Nat := 2
      if copiedCount = 0 then
        Except.error "Error: No index files were copied - check build process"
      else Except.ok ({ cats := some c, sitesEn := some s }, copiedCount)

/-- Claim C7: the publisher succeeds exactly when both source documents
exist and both parse as JSON, in which case it has copied both to the
serve location; in every other case (missing source, unparseable copy, or
the vacuous zero-copies guard) it aborts with an error. The run is a
single pass with no retry. -/
theorem c7_publisher_success_iff (jsonOk : String → Bool) (dist : IndexPair)
    (w : IndexPair) (n : Nat) :
    copyIndexes jsonOk dist = Except.ok (w, n) ↔
      (∃ c s, dist.cats = some c ∧ dist.sitesEn = some s ∧
        jsonOk c = true ∧ jsonOk s = true ∧
        w = { cats := some c, sitesEn := some s } ∧ n = 2) := by
  obtain ⟨dc, ds⟩ := dist
  constructor
  · intro h
    cases dc with
    | none => simp [copyIndexes, copyOneIndex] at h
    | some c =>
      cases hjc : jsonOk c with
      | false => simp [copyIndexes, copyOneIndex, hjc] at h
      | true =>
        cases ds with
        | none => simp [copyIndexes, copyOneIndex, hjc] at h
        | some s =>
          cases hjs : jsonOk s with
          | false => simp [copyIndexes, copyOneIndex, hjc, hjs] at h
          | true =>
            have hred : copyIndexes jsonOk ⟨some c, some s⟩ =
                Except.ok (({ cats := some c, sitesEn := some s } : IndexPair), 2) := by
              simp [copyIndexes, copyOneIndex, hjc, hjs]
            rw [hred] at h
            injection h with h2
            cases h2
            exact ⟨c, s, rfl, rfl, hjc, hjs, rfl, rfl⟩
  · rintro ⟨c1, s1, hc1, hs1, hj1, hj2, hw, hn⟩
    subst hc1; subst hs1; subst hw; subst hn
    simp [copyIndexes, copyOneIndex, hj1, hj2]

/-! ### Serialization (`JSON.stringify(x, null, 2)`) and determinism (C8) -/

/-- Lowercase hexadecimal digit. -/
def hexDigit (n : Nat) : String :=
  String.singleton (Char.ofNat (if n < 10 then 48 + n else 87 + n))

/-- Escaping of one character inside a JSON string literal. -/
def jsonEscChar (c : Char) : String :=
  if c = Char.ofNat 34 then "\\\""
  else if c = Char.ofNat 92 then "\\\\"
  else if c = Char.ofNat 8 then "\\b"
  else if c = Char.ofNat 9 then "\\t"
  else if c = Char.ofNat 10 then "\\n"
  else if c = Char.ofNat 12 then "\\f"
  else if c = Char.ofNat 13 then "\\r"
  else if c.toNat < 32 then "\\u00" ++ hexDigit (c.toNat / 16) ++ hexDigit (c.toNat % 16)
  else String.singleton c

/-- A JSON string literal. -/
def jsonStr (s : String) : String :=
  "\"" ++ String.join (s.data.map jsonEscChar) ++ "\""

/-- `Array.prototype.join` on already-rendered pieces. -/
def joinSep (sep : String) : List String → String
  | [] => ""
  | x :: xs => xs.foldl (fun acc y => acc ++ sep ++ y) x

/-- A JSON array of strings under 2-space indentation, where `pad` is the
indentation of the line the array starts on. -/
def jsonStrArray (pad : String) (l : List String) : String :=
  match l with
  | [] => "[]"
  | _ => "[\n" ++ joinSep ",\n" (l.map (fun x => pad ++ "  " ++ jsonStr x)) ++
      "\n" ++ pad ++ "]"

/-- One element of the `sites-en.json` array: keys in insertion order of
the `siteEntry` object literal, `tags` last and only when present. -/
def siteEntryJson (e : SiteEntry) : String :=
  "  \x7b\n    \"id\": " ++ jsonStr e.id ++
  ",\n    \"url\": " ++ jsonStr e.url ++
  ",\n    \"title\": " ++ jsonStr e.title ++
  ",\n    \"description\": " ++ jsonStr e.description ++
  ",\n    \"category\": " ++ jsonStr e.category ++
  ",\n    \"lenses\": " ++ jsonStrArray "    " e.lenses ++
  ",\n    \"quality\": " ++ jsonStr e.quality ++
  (match e.tags with
   | none => ""
   | some t => ",\n    \"tags\": " ++ jsonStrArray "    " t) ++
  "\n  \x7d"

/-- `JSON.stringify(sites, null, 2)`. -/
def sitesJsonText (l : List SiteEntry) : String :=
  match l with
  | [] => "[]"
  | _ => "[\n" ++ joinSep ",\n" (l.map siteEntryJson) ++ "\n]"

/-- One `{name, count}` element of the categories array. -/
def categoryPairJson (p : String × Nat) : String :=
  "    \x7b\n      \"name\": " ++ jsonStr p.1 ++
  ",\n      \"count\": " ++ toString p.2 ++ "\n    \x7d"

/-- `JSON.stringify(categoriesData, null, 2)`. -/
def categoriesJsonText (doc : CategoriesDoc) : String :=
  "\x7b\n  \"categories\": " ++
  (match doc.categories with
   | [] => "[]"
   | l => "[\n" ++ joinSep ",\n" (l.map categoryPairJson) ++ "\n  ]") ++
  ",\n  \"totalSites\": " ++ toString doc.totalSites ++ "\n\x7d"

/-- The two documents one build run writes, as byte strings. -/
def buildOutputs (store : Store) : String × String :=
  (categoriesJsonText (categoriesDoc store), sitesJsonText (flatSites store))

/-- Claim C8: the build is deterministic — two runs over the same record
store snapshot (same directory listing, same file contents) produce
byte-identical `categories.json` and `sites-en.json`. The embedded build
consumes nothing but the snapshot: `readdirSync` order, each file content
and the parse outcome are the store, and `Map` insertion order and the
stable sort are functions of it. -/
theorem c8_build_deterministic (s t : Store) (h : s = t) :
    buildOutputs s = buildOutputs t := by
  rw [h]

/-- Witness for C8: two runs over the scenario store agree. -/
theorem c8_build_deterministic_witness :
    buildOutputs scenarioStore = buildOutputs scenarioStore :=
  c8_build_deterministic scenarioStore scenarioStore rfl

/-! ### The client renderer (`web/app.js`) -/

/-- One character of `escapeHtml`: the function routes text through a DOM
text node (`div.textContent = text; div.innerHTML`), whose serialization
escapes ampersand, the angle brackets directed at text context, and the
non-breaking space. Quotes pass through unchanged. -/
def escCharHtml (c : Char) : List Char :=
  if c = Char.ofNat 38 then ("&amp;").data
  else if c = Char.ofNat 60 then ("&lt;").data
  else if c = Char.ofNat 62 then ("&gt;").data
  else if c = Char.ofNat 160 then ("&nbsp;").data
  else [c]

def escapeList : List Char → List Char
  | [] => []
  | c :: cs => escCharHtml c ++ escapeList cs

/-- The `escapeHtml` utility of `web/app.js` lines 114-118. -/
def escapeHtml (s : String) : String :=
  String.mk (escapeList s.data)

/-- The category-card template of `renderCategories` (lines 59-64),
which interpolates the raw `cat.name` into the `data-category`
attribute and `escapeHtml(cat.name)` into the heading. -/
def categoryCardHtml (name : String) (count : Nat) : String :=
  "\n    <div class=\"category-card\" data-category=\"" ++ name ++
  "\">\n      <h3>" ++ escapeHtml name ++
  "</h3>\n      <div class=\"count\">" ++ toString count ++ " site" ++
  (if count ≠ 1 then "s" else "") ++ "</div>\n    </div>\n  "

/-- `categoriesView.innerHTML`: the joined category cards. -/
def renderCategoriesHtml (cats : List (String × Nat)) : String :=
  String.join (cats.map (fun p => categoryCardHtml p.1 p.2))

/-- The card template with its two category-name slots taken as explicit
arguments, so that one can state which value reaches each slot. -/
def categoryCardFromParts (attrValue heading : String) (count : Nat) : String :=
  "\n    <div class=\"category-card\" data-category=\"" ++ attrValue ++
  "\">\n      <h3>" ++ heading ++
  "</h3>\n      <div class=\"count\">" ++ toString count ++ " site" ++
  (if count ≠ 1 then "s" else "") ++ "</div>\n    </div>\n  "

/-- The categories view as the spec words it: every catalog-derived string
passes through `escapeHtml` before insertion, in the attribute slot too. -/
def renderCategoriesAllEscapedHtml (cats : List (String × Nat)) : String :=
  String.join (cats.map (fun p =>
    categoryCardFromParts (escapeHtml p.1) (escapeHtml p.1) p.2))

/-- One lens tag of the entries view (line 100). -/
def lensTagHtml (lens : String) : String :=
  "<span class=\"lens-tag\">" ++ escapeHtml lens ++ "</span>"

/-- The conditional lens block (lines 98-102): rendered only when the
entity has at least one lens. -/
def lensesBlockHtml (lenses : List String) : String :=
  if lenses.length > 0 then
    "\n          <div class=\"lenses\">\n            " ++
    String.join (lenses.map lensTagHtml) ++
    "\n          </div>\n        "
  else ""

/-- The site-card template of `showCategory` (lines 91-105). -/
def siteCardHtml (e : SiteEntry) : String :=
  "\n    <div class=\"site-card\">\n      <h3><a href=\"" ++ escapeHtml e.url ++
  "\" target=\"_blank\" rel=\"noopener noreferrer\">" ++ escapeHtml e.title ++
  "</a></h3>\n      <a href=\"" ++ escapeHtml e.url ++
  "\" target=\"_blank\" rel=\"noopener noreferrer\" class=\"url\">" ++ escapeHtml e.url ++
  "</a>\n      <p class=\"description\">" ++ escapeHtml e.description ++
  "</p>\n      <div class=\"meta\">\n        <span class=\"quality-badge quality-" ++
  escapeHtml e.quality ++ "\">" ++ escapeHtml e.quality ++
  "</span>\n        " ++ lensesBlockHtml e.lenses ++
  "\n      </div>\n    </div>\n  "

/-- `sitesList.innerHTML`: cards of the entities whose category equals the
selected one exactly. -/
def sitesListHtml (sites : List SiteEntry) (categoryName : String) : String :=
  String.join ((sites.filter (fun s => s.category == categoryName)).map siteCardHtml)

/-- One lens span built from an already-escaped value. -/
def lensTagFromEscaped (v : String) : String :=
  "<span class=\"lens-tag\">" ++ v ++ "</span>"

/-- The lens block built from already-escaped values. -/
def lensesBlockFromEscaped (vs : List String) : String :=
  if vs.length > 0 then
    "\n          <div class=\"lenses\">\n            " ++
    String.join (vs.map lensTagFromEscaped) ++
    "\n          </div>\n        "
  else ""

/-- The site-card template with every catalog-derived slot taken as an
explicit argument: catalog data can reach the markup only through these
arguments. -/
def siteCardFromEscaped (url title description quality lensBlock : String) : String :=
  "\n    <div class=\"site-card\">\n      <h3><a href=\"" ++ url ++
  "\" target=\"_blank\" rel=\"noopener noreferrer\">" ++ title ++
  "</a></h3>\n      <a href=\"" ++ url ++
  "\" target=\"_blank\" rel=\"noopener noreferrer\" class=\"url\">" ++ url ++
  "</a>\n      <p class=\"description\">" ++ description ++
  "</p>\n      <div class=\"meta\">\n        <span class=\"quality-badge quality-" ++
  quality ++ "\">" ++ quality ++
  "</span>\n        " ++ lensBlock ++
  "\n      </div>\n    </div>\n  "

/-- A category name crafted to break out of the unescaped attribute. -/
def injectionName : String := "\"><b>"

set_option maxHeartbeats 1000000 in
/-- Counterexample to C2 as stated: the categories view does not equal the
view in which every catalog-derived string passes through `escapeHtml`,
because `cat.name` reaches the `data-category` attribute raw. -/
theorem c2_unescaped_attribute_counterexample :
    renderCategoriesHtml [(injectionName, 1)] ≠
      renderCategoriesAllEscapedHtml [(injectionName, 1)] := by
  decide

theorem no_angle_escCharHtml (c : Char) :
    Char.ofNat 60 ∉ escCharHtml c ∧ Char.ofNat 62 ∉ escCharHtml c := by
  by_cases h38 : c = Char.ofNat 38
  · subst h38; decide
  · by_cases h60 : c = Char.ofNat 60
    · subst h60; decide
    · by_cases h62 : c = Char.ofNat 62
      · subst h62; decide
      · by_cases h160 : c = Char.ofNat 160
        · subst h160; decide
        · rw [escCharHtml, if_neg h38, if_neg h60, if_neg h62, if_neg h160]
          constructor <;> intro hmem <;> rcases List.mem_singleton.mp hmem with heq
          · exact h60 heq.symm
          · exact h62 heq.symm

theorem escapeList_no_angle (l : List Char) :
    Char.ofNat 60 ∉ escapeList l ∧ Char.ofNat 62 ∉ escapeList l := by
  induction l with
  | nil => exact ⟨List.not_mem_nil _, List.not_mem_nil _⟩
  | cons c cs ih =>
    refine ⟨?_, ?_⟩ <;> rw [escapeList, List.mem_append] <;> rintro (h | h)
    · exact (no_angle_escCharHtml c).1 h
    · exact ih.1 h
    · exact (no_angle_escCharHtml c).2 h
    · exact ih.2 h

theorem lensesBlock_from_escaped (l : List String) :
    lensesBlockHtml l = lensesBlockFromEscaped (l.map escapeHtml) := by
  have hmap : List.map (lensTagFromEscaped ∘ escapeHtml) l = List.map lensTagHtml l :=
    List.map_congr_left (fun x _ => rfl)
  simp only [lensesBlockHtml, lensesBlockFromEscaped, List.map_map, List.length_map]
  rw [hmap]

set_option maxHeartbeats 2000000 in
/-- Claim C2 as amended: in the entries view every catalog-derived string
(urls, titles, descriptions, quality values, lens tags) reaches the markup
only through `escapeHtml`; in the categories view the category name is
escaped in the visible heading but interpolated raw into the cards
`data-category` attribute. Escaped insertions can never contain a raw
angle bracket, so they cannot open a tag in the page. -/
theorem c2_escaping_amended :
    (∀ e, siteCardHtml e =
      siteCardFromEscaped (escapeHtml e.url) (escapeHtml e.title)
        (escapeHtml e.description) (escapeHtml e.quality)
        (lensesBlockFromEscaped (e.lenses.map escapeHtml))) ∧
    (∀ cats, renderCategoriesHtml cats =
      String.join (cats.map (fun p =>
        categoryCardFromParts p.1 (escapeHtml p.1) p.2))) ∧
    (∀ sites c, sitesListHtml sites c =
      String.join ((sites.filter (fun s => s.category == c)).map (fun e =>
        siteCardFromEscaped (escapeHtml e.url) (escapeHtml e.title)
          (escapeHtml e.description) (escapeHtml e.quality)
          (lensesBlockFromEscaped (e.lenses.map escapeHtml))))) ∧
    (∀ s, Char.ofNat 60 ∉ (escapeHtml s).data ∧ Char.ofNat 62 ∉ (escapeHtml s).data) := by
  have hcard : ∀ e, siteCardHtml e =
      siteCardFromEscaped (escapeHtml e.url) (escapeHtml e.title)
        (escapeHtml e.description) (escapeHtml e.quality)
        (lensesBlockFromEscaped (e.lenses.map escapeHtml)) := by
    intro e
    rw [siteCardHtml, siteCardFromEscaped, lensesBlock_from_escaped]
  refine ⟨hcard, fun cats => rfl, ?_, ?_⟩
  · intro sites c
    rw [sitesListHtml]
    exact congrArg String.join (List.map_congr_left (fun e _ => hcard e))
  · intro s
    exact escapeList_no_angle s.data

end WebAtlas
